import Mathlib

/-!
Shallow embedding of the roku-web-remote backend services
(`src/server/services/DeviceDiscovery.js` and `src/server/services/RokuService.js`)
together with proofs about the discovery aggregation loop and the
protocol-translation helpers.

JavaScript idioms are embedded explicitly:
* `x || d` on strings/numbers is modelled by `jsOrStr` / `jsOrNat`
  (the empty string and `0` are falsy);
* optional object fields are `Option` values;
* a function that can throw is `Except String`-valued, `try`/`catch` is a
  `match` on that value;
* a JavaScript `Map` is an association list in insertion order: `set` replaces
  in place when the key is present and appends otherwise, `values()` is the
  list of second components.
-/

namespace RokuWeb

/-- JS truthiness of an optional string field (`undefined` and `""` are falsy). -/
def jsTruthyStr : Option String → Bool
  | none => false
  | some s => decide (s ≠ "")

/-- JS `x || d` for an optional string field. -/
def jsOrStr (x : Option String) (d : String) : String :=
  match x with
  | some s => if s = "" then d else s
  | none => d

/-- JS `x || d` for an optional numeric field (`0` is falsy). -/
def jsOrNat (x : Option Nat) (d : Nat) : Nat :=
  match x with
  | some n => if n = 0 then d else n
  | none => d

/-- JS `x || y` where both sides are optional string fields. -/
def jsOrOptStr (x y : Option String) : Option String :=
  if jsTruthyStr x then x else y

/-- `listIsPref a b` holds when `a` is an initial segment of `b`. -/
def listIsPref : List Char → List Char → Bool
  | [], _ => true
  | _ :: _, [] => false
  | a :: as, b :: bs => decide (a = b) && listIsPref as bs

/-- `charsHasSub sub l`: some tail of `l` starts with `sub`. -/
def charsHasSub (sub : List Char) : List Char → Bool
  | [] => listIsPref sub []
  | c :: cs => listIsPref sub (c :: cs) || charsHasSub sub cs

/-- JS `s.includes(sub)`. -/
def strIncludes (s sub : String) : Bool :=
  charsHasSub sub.data s.data

/-! ### mDNS records and responses (`multicast-dns` event payloads) -/

/-- One DNS resource record as delivered by the `multicast-dns` listener.
`type` is the record type tag (`"A"`, `"PTR"`, `"TXT"`, ...); for `"A"`
records `data` carries the IPv4 address as a string. -/
structure DnsRecord where
  name : Option String
  type : String
  data : Option String
deriving DecidableEq, Repr

/-- One mDNS response: `answers` and `additionals` record sections. -/
structure DnsResponse where
  answers : List DnsRecord
  additionals : List DnsRecord
deriving DecidableEq, Repr

/-- Internal device descriptor as built by `DeviceDiscovery._processResponse`
and `DeviceDiscovery._extractDeviceInfo` before normalization. -/
structure Device where
  name : Option String
  ip : String
  port : Option Nat
  type : Option String
  text : Option String
deriving DecidableEq, Repr

/-- The session's `discoveredMap`: a JS `Map` from address to descriptor,
kept in insertion order. -/
abbrev DeviceMap := List (String × Device)

/-- JS `map.has(k)`. -/
def mapHas (m : DeviceMap) (k : String) : Bool :=
  m.any fun p => decide (p.1 = k)

/-- JS `map.set(k, v)`: replace in place when present, append otherwise. -/
def mapSet (m : DeviceMap) (k : String) (v : Device) : DeviceMap :=
  if mapHas m k then m.map (fun p => if p.1 = k then (k, v) else p)
  else m ++ [(k, v)]

/-- JS `map.get(k)` (as an option). -/
def mapLookup (m : DeviceMap) (k : String) : Option Device :=
  (m.find? fun p => decide (p.1 = k)).map (·.2)

/-- JS `Array.from(map.values())` in insertion order. -/
def mapValues (m : DeviceMap) : List Device :=
  m.map (·.2)

/-- The guard `record.name && record.name.includes('Roku')`. -/
def nameHasRoku (name : Option String) : Bool :=
  match name with
  | none => false
  | some n => if n = "" then false else strIncludes n "Roku"

/-- The `aRecord` lookup of `_extractDeviceInfo`: the first `A` record in
the response sharing the given record's name, projected to its `data`. -/
def extractIp (record : DnsRecord) (allRecords : List DnsRecord) : Option String :=
  (allRecords.find? fun r => decide (r.type = "A" ∧ r.name = record.name)).bind (·.data)

/-- The `txtRecord` lookup of `_extractDeviceInfo`. -/
def extractTxt (record : DnsRecord) (allRecords : List DnsRecord) : Option String :=
  (allRecords.find? fun r => decide (r.type = "TXT" ∧ r.name = record.name)).bind (·.data)

/-- `DeviceDiscovery._extractDeviceInfo(record, allRecords)`: correlate a
Roku-named record with a companion `A` record (and `TXT` record) of the same
name; yields `none` when no truthy IP can be resolved. -/
def extractDeviceInfo (record : DnsRecord) (allRecords : List DnsRecord) : Option Device :=
  if jsTruthyStr (extractIp record allRecords) then
    some { name := record.name
           ip := (extractIp record allRecords).getD ""
           port := some 8060
           type := some "roku"
           text := if jsTruthyStr (extractTxt record allRecords) then
                     extractTxt record allRecords
                   else none }
  else none

/-- First block of the `allRecords.forEach(record => ...)` in
`DeviceDiscovery._processResponse`: the Roku-named branch, an overwriting
`set` guarded by `if (device && device.ip)`. -/
def processRecordRoku (allRecords : List DnsRecord) (m : DeviceMap) (record : DnsRecord) :
    DeviceMap :=
  if nameHasRoku record.name then
    match extractDeviceInfo record allRecords with
    | some device => if device.ip ≠ "" then mapSet m device.ip device else m
    | none => m
  else m

/-- The provisional descriptor the bare-`A`-record branch builds. -/
def aRecordDevice (record : DnsRecord) : Device :=
  { name := record.name
    ip := record.data.getD ""
    port := some 8060
    type := some "roku"
    text := none }

/-- Second block of the `forEach` body: the bare-`A`-record heuristic, a
`set` guarded by `if (!discoveredMap.has(device.ip))`. -/
def processRecordA (m : DeviceMap) (record : DnsRecord) : DeviceMap :=
  if record.type = "A" && jsTruthyStr record.data then
    if mapHas m (aRecordDevice record).ip then m
    else mapSet m (aRecordDevice record).ip (aRecordDevice record)
  else m

/-- The whole `forEach` body: the Roku-named branch, then the bare-`A`
branch, in source order. -/
def processRecord (allRecords : List DnsRecord) (m : DeviceMap) (record : DnsRecord) :
    DeviceMap :=
  processRecordA (processRecordRoku allRecords m record) record

/-- `DeviceDiscovery._processResponse(response, discoveredMap)`: fold the
`forEach` body over `[...answers, ...additionals]`. -/
def processResponse (response : DnsResponse) (m : DeviceMap) : DeviceMap :=
  (response.answers ++ response.additionals).foldl
    (processRecord (response.answers ++ response.additionals)) m

/-- Normalized public descriptor produced by `DeviceDiscovery._normalizeDevice`. -/
structure NormDevice where
  ip : String
  name : String
  port : Nat
  type : String
  url : String
deriving DecidableEq, Repr

/-- `DeviceDiscovery._normalizeDevice(device)`. -/
def normalizeDevice (device : Device) : NormDevice :=
  { ip := device.ip
    name := jsOrStr device.name "Unknown Roku Device"
    port := jsOrNat device.port 8060
    type := jsOrStr device.type "roku"
    url := "http://" ++ device.ip ++ ":" ++ toString (jsOrNat device.port 8060) }

/-! ### The discovery event loop

`DeviceDiscovery.discover` races three event sources: the deadline timer,
the inbound-response stream, and the listener error event.  A run of one
discovery call is the ordered list of events the listener delivers; the
promise resolves at the first event whose handler calls `resolve`.  `none`
means the promise is still pending after the listed events. -/

/-- One event delivered to the discovery session. -/
inductive DiscEvent where
  | response (r : DnsResponse)
  | timeoutFires
  | listenerError
deriving DecidableEq, Repr

/-- How the discovery promise is settled. -/
inductive DiscOutcome where
  | resolved (devices : List NormDevice)
  | rejected (msg : String)
deriving DecidableEq, Repr

/-- Run the discovery session from map state `m` over an ordered event list.
Mirrors the three handlers of `DeviceDiscovery.discover`:
* timer: `slice(0, maxDevices)` then normalize, resolve;
* response: if `size >= maxDevices` already, resolve with the whole map
  (no slice) without processing this response, else process the response;
* error: resolve with the whole map (no slice), never reject. -/
def discoverRun (maxDevices : Nat) : DeviceMap → List DiscEvent → Option DiscOutcome
  | _, [] => none
  | m, DiscEvent.timeoutFires :: _ =>
      some (DiscOutcome.resolved (((mapValues m).take maxDevices).map normalizeDevice))
  | m, DiscEvent.listenerError :: _ =>
      let devices := (mapValues m).map normalizeDevice
      some (DiscOutcome.resolved (if devices.length > 0 then devices else []))
  | m, DiscEvent.response r :: rest =>
      if maxDevices ≤ m.length then
        some (DiscOutcome.resolved ((mapValues m).map normalizeDevice))
      else
        discoverRun maxDevices (processResponse r m) rest

/-- `DeviceDiscovery.discover`: a session starts from an empty map. -/
def discover (maxDevices : Nat) (events : List DiscEvent) : Option DiscOutcome :=
  discoverRun maxDevices [] events

/-! ### RokuService: URL construction and text encoding -/

/-- `RokuService._buildUrl(ip, endpoint)`: append the well-known control port
unless the address already contains a port separator. -/
def buildUrl (ip endpoint : String) : String :=
  let baseUrl := if strIncludes ip ":" then ip else ip ++ ":8060"
  "http://" ++ baseUrl ++ endpoint

/-- The characters `encodeURIComponent` leaves unescaped:
`A-Z a-z 0-9 - _ . ! ~ * ' ( )` (39 is the apostrophe). -/
def isUnreservedChar (c : Char) : Bool :=
  (65 ≤ c.toNat && c.toNat ≤ 90) || (97 ≤ c.toNat && c.toNat ≤ 122) ||
  (48 ≤ c.toNat && c.toNat ≤ 57) ||
  c = '-' || c = '_' || c = '.' || c = '!' || c = '~' || c = '*' ||
  c.toNat = 39 || c = '(' || c = ')'

/-- Uppercase hexadecimal digit for `n < 16`. -/
def hexDigit (n : Nat) : Char :=
  if n < 10 then Char.ofNat (48 + n) else Char.ofNat (55 + n)

/-- UTF-8 bytes of a unicode scalar value. -/
def utf8Bytes (c : Char) : List Nat :=
  let n := c.toNat
  if n < 128 then [n]
  else if n < 2048 then [192 + n / 64, 128 + n % 64]
  else if n < 65536 then [224 + n / 4096, 128 + (n / 64) % 64, 128 + n % 64]
  else [240 + n / 262144, 128 + (n / 4096) % 64, 128 + (n / 64) % 64, 128 + n % 64]

/-- Percent-encoding of one byte, uppercase hex. -/
def percentEncodeNat (b : Nat) : String :=
  String.mk ['%', hexDigit (b / 16), hexDigit (b % 16)]

/-- `encodeURIComponent` on one character. -/
def encodeChar (c : Char) : String :=
  if isUnreservedChar c then String.singleton c
  else String.join ((utf8Bytes c).map percentEncodeNat)

/-- JS `encodeURIComponent`. -/
def encodeURIComponent (s : String) : String :=
  String.join (s.data.map encodeChar)

/-- The outbound URL built by `RokuService.text(ip, t)`:
`_buildUrl(ip, '/keypress/Lit_' + encodeURIComponent(t))`. -/
def textUrl (ip t : String) : String :=
  buildUrl ip ("/keypress/Lit_" ++ encodeURIComponent t)

/-! ### RokuService: requests and XML reply parsing -/

/-- Outcome of the single outbound `axios` attempt (the device's reply, or
the transport-level failure code). -/
inductive HttpOutcome where
  | reply (status : Nat) (statusText : String) (body : String)
  | connRefused
  | timedOut
  | nameNotFound
  | otherFailure (msg : String)
deriving DecidableEq, Repr

/-- `RokuService._makeRequest`: statuses below 400 return the body; a status
of 400 or above, and every transport failure, throws (an `Except.error`)
with the message the source builds. -/
def makeRequest (url : String) (outcome : HttpOutcome) : Except String String :=
  match outcome with
  | HttpOutcome.reply status statusText body =>
      if 400 ≤ status then
        Except.error ("Roku API error: " ++ toString status ++ " " ++ statusText)
      else Except.ok body
  | HttpOutcome.connRefused =>
      Except.error ("Cannot connect to Roku device at " ++ url ++
        ". Check IP address and that device is powered on.")
  | HttpOutcome.timedOut =>
      Except.error "Connection timeout to Roku device. Check network connectivity."
  | HttpOutcome.nameNotFound =>
      Except.error "Connection timeout to Roku device. Check network connectivity."
  | HttpOutcome.otherFailure msg => Except.error msg

/-- Attribute set of one `<app>` element as exposed by `xml2js` (`app.$`). -/
structure XmlAttrs where
  id : Option String
  type : Option String
  version : Option String
deriving DecidableEq, Repr

/-- One entry of `parsed.apps.app` as exposed by `xml2js`: `dollar` is the
attribute object `app.$` (absent for bare string entries, whose property
access then throws), `text` is the text content `app._`. -/
structure XmlAppEntry where
  dollar : Option XmlAttrs
  text : Option String
deriving DecidableEq, Repr

/-- The shape of `parsed.apps?.app` after a successful parse. -/
inductive AppsField where
  | absent
  | arr (entries : List XmlAppEntry)
  | nonArrayValue
deriving DecidableEq, Repr

/-- Outcome of `parseStringPromise` on the apps reply. -/
inductive AppsParse where
  | failure
  | success (apps : AppsField)
deriving DecidableEq, Repr

/-- The record `RokuService._parseAppsXml` builds for one app entry. -/
structure AppRecord where
  id : Option String
  name : Option String
  type : Option String
  version : Option String
deriving DecidableEq, Repr

/-- The arrow body `app => ({id: app.$.id, name: app.$['version'] || app._,
type: app.$.type, version: app.$.version})`; `none` models the `TypeError`
thrown when `app.$` is undefined. -/
def appOfEntry (entry : XmlAppEntry) : Option AppRecord :=
  match entry.dollar with
  | none => none
  | some attrs =>
      some { id := attrs.id
             name := jsOrOptStr attrs.version entry.text
             type := attrs.type
             version := attrs.version }

/-- `RokuService._parseAppsXml`: parse failures, a missing or non-array
`apps.app` field, and a `TypeError` inside the map all yield `[]`. -/
def parseAppsXml (p : AppsParse) : List AppRecord :=
  match p with
  | AppsParse.failure => []
  | AppsParse.success AppsField.absent => []
  | AppsParse.success AppsField.nonArrayValue => []
  | AppsParse.success (AppsField.arr entries) =>
      match entries.mapM appOfEntry with
      | some records => records
      | none => []

/-- `RokuService.getApps(ip)`: request then parse; a request failure
propagates, the parse itself never throws. -/
def getApps (ip : String) (outcome : HttpOutcome) (parse : String → AppsParse) :
    Except String (List AppRecord) :=
  (makeRequest (buildUrl ip "/query/apps") outcome).map fun xml => parseAppsXml (parse xml)

/-- Outcome of `parseStringPromise` on the media-search reply: a parsed
document (abstracted to its payload), a falsy parse result, or a thrown
parse error. -/
inductive MediaXmlParse where
  | doc (v : String)
  | nullDoc
  | failure
deriving DecidableEq, Repr

/-- What `RokuService.getMediaPlayer` returns: the parsed document, or the
soft `{available: false, error?}` record. -/
inductive MediaResult where
  | content (v : String)
  | unavailable (error : Option String)
deriving DecidableEq, Repr

/-- `RokuService._parseMediaXml`: `parsed || {available: false}`, with its
own `catch` returning `{available: false}`; it never throws. -/
def parseMediaXml (p : MediaXmlParse) : MediaResult :=
  match p with
  | MediaXmlParse.doc v => MediaResult.content v
  | MediaXmlParse.nullDoc => MediaResult.unavailable none
  | MediaXmlParse.failure => MediaResult.unavailable none

/-- `RokuService.getMediaPlayer(ip)`: the `try`/`catch` around the request
turns every thrown failure into `{available: false, error: message}`. -/
def getMediaPlayer (ip : String) (outcome : HttpOutcome)
    (parse : String → MediaXmlParse) : Except String MediaResult :=
  match makeRequest (buildUrl ip "/query/media-search") outcome with
  | Except.ok xml => Except.ok (parseMediaXml (parse xml))
  | Except.error e => Except.ok (MediaResult.unavailable (some e))

/-! ### Helper lemmas about the session map -/

theorem if_length_pos_eq (l : List NormDevice) : (if l.length > 0 then l else []) = l := by
  cases l <;> simp

theorem mapHas_iff (m : DeviceMap) (k : String) :
    mapHas m k = true ↔ ∃ p ∈ m, p.1 = k := by
  simp [mapHas]

theorem mem_mapSet (m : DeviceMap) (k : String) (v : Device) (p : String × Device)
    (h : p ∈ mapSet m k v) : p = (k, v) ∨ p ∈ m := by
  unfold mapSet at h
  split at h
  · obtain ⟨q, hq, hfq⟩ := List.mem_map.mp h
    by_cases hqk : q.1 = k
    · left; rw [← hfq]; simp [hqk]
    · right; rw [← hfq]; simp [hqk]; exact hq
  · rcases List.mem_append.mp h with h | h
    · right; exact h
    · left; simpa using h

theorem mapSet_length_le (m : DeviceMap) (k : String) (v : Device) :
    (mapSet m k v).length ≤ m.length + 1 := by
  unfold mapSet
  split
  · rw [List.length_map]; exact Nat.le_succ _
  · simp

theorem mapHas_mapSet_self (m : DeviceMap) (k : String) (v : Device) :
    mapHas (mapSet m k v) k = true := by
  unfold mapSet
  split
  next h =>
    rw [mapHas_iff] at h ⊢
    obtain ⟨p, hp, hpk⟩ := h
    exact ⟨(k, v), List.mem_map.mpr ⟨p, hp, by simp [hpk]⟩, rfl⟩
  next h =>
    rw [mapHas_iff]
    exact ⟨(k, v), by simp, rfl⟩

theorem mapLookup_mem (m : DeviceMap) (k : String) (d : Device)
    (h : mapLookup m k = some d) : ∃ p ∈ m, p.2 = d := by
  unfold mapLookup at h
  cases hf : m.find? (fun p => decide (p.1 = k)) with
  | none => rw [hf] at h; simp at h
  | some p =>
      rw [hf] at h
      simp at h
      exact ⟨p, List.mem_of_find?_eq_some hf, h⟩

theorem find?_replace_of_mem (k : String) (v : Device) :
    ∀ (m : DeviceMap), (∃ p ∈ m, p.1 = k) →
      List.find? (fun p => decide (p.1 = k))
        (m.map fun p => if p.1 = k then (k, v) else p) = some (k, v) := by
  intro m
  induction m with
  | nil => intro h; simp at h
  | cons p m ih =>
      intro h
      by_cases hpk : p.1 = k
      · simp [hpk]
      · have h' : ∃ q ∈ m, q.1 = k := by
          rcases h with ⟨q, hq, hqk⟩
          rcases List.mem_cons.mp hq with rfl | hq'
          · exact absurd hqk hpk
          · exact ⟨q, hq', hqk⟩
        rw [List.map_cons, if_neg hpk,
          List.find?_cons_of_neg _ (by simpa using hpk)]
        exact ih h'

theorem find?_append_of_absent (k : String) (v : Device) :
    ∀ (m : DeviceMap), (∀ p ∈ m, p.1 ≠ k) →
      List.find? (fun p => decide (p.1 = k)) (m ++ [(k, v)]) = some (k, v) := by
  intro m
  induction m with
  | nil => intro _; simp
  | cons p m ih =>
      intro hall
      have hpk : p.1 ≠ k := hall p (by simp)
      rw [List.cons_append, List.find?_cons_of_neg _ (by simpa using hpk)]
      exact ih fun q hq => hall q (List.mem_cons_of_mem p hq)

theorem mapLookup_mapSet_self (m : DeviceMap) (k : String) (v : Device) :
    mapLookup (mapSet m k v) k = some v := by
  unfold mapSet mapLookup
  split
  next h =>
    rw [find?_replace_of_mem k v m ((mapHas_iff m k).mp h)]
    rfl
  next h =>
    have hall : ∀ p ∈ m, p.1 ≠ k := by
      intro p hp hpk
      exact h ((mapHas_iff m k).mpr ⟨p, hp, hpk⟩)
    rw [find?_append_of_absent k v m hall]
    rfl

theorem map_fst_mapSet_of_has (m : DeviceMap) (k : String) (v : Device)
    (h : mapHas m k = true) :
    (mapSet m k v).map Prod.fst = m.map Prod.fst := by
  unfold mapSet
  rw [if_pos h, List.map_map]
  apply List.map_congr_left
  intro p _
  by_cases hpk : p.1 = k
  · simp [hpk, Function.comp]
  · simp [hpk, Function.comp]

/-- Well-formedness of a session map: addresses (keys) are pairwise distinct,
and every stored descriptor records its own key as `ip`, the constant kind
`"roku"`, and the explicit port `8060` (both construction sites set these). -/
def mapWF (m : DeviceMap) : Prop :=
  (m.map Prod.fst).Nodup ∧
    ∀ p ∈ m, p.2.ip = p.1 ∧ p.2.type = some "roku" ∧ p.2.port = some 8060

theorem mapWF_nil : mapWF [] := ⟨by simp, by simp⟩

theorem mapWF_mapSet (m : DeviceMap) (k : String) (v : Device) (h : mapWF m)
    (hip : v.ip = k) (ht : v.type = some "roku") (hp : v.port = some 8060) :
    mapWF (mapSet m k v) := by
  constructor
  · by_cases hk : mapHas m k = true
    · rw [map_fst_mapSet_of_has m k v hk]; exact h.1
    · unfold mapSet
      rw [if_neg hk, List.map_append]
      have hnot : k ∉ m.map Prod.fst := by
        intro hc
        obtain ⟨p, hp', he⟩ := List.mem_map.mp hc
        exact hk ((mapHas_iff m k).mpr ⟨p, hp', he⟩)
      simp [List.nodup_append, h.1, hnot]
  · intro p hp'
    rcases mem_mapSet m k v p hp' with rfl | hm
    · exact ⟨hip, ht, hp⟩
    · exact h.2 p hm

/-! ### Lemmas about record processing -/

theorem jsTruthyStr_getD_ne (o : Option String) (h : jsTruthyStr o = true) :
    o.getD "" ≠ "" := by
  cases o with
  | none => simp [jsTruthyStr] at h
  | some s =>
      simp only [jsTruthyStr, decide_eq_true_eq] at h
      simpa using h

theorem extractDeviceInfo_props (record : DnsRecord) (allRecords : List DnsRecord)
    (d : Device) (h : extractDeviceInfo record allRecords = some d) :
    d.type = some "roku" ∧ d.port = some 8060 ∧ d.ip ≠ "" ∧ d.name = record.name := by
  unfold extractDeviceInfo at h
  split at h
  next hip =>
    cases h
    exact ⟨rfl, rfl, jsTruthyStr_getD_ne _ hip, rfl⟩
  next => exact absurd h (by simp)

theorem processRecordRoku_WF (allRecords : List DnsRecord) (m : DeviceMap)
    (record : DnsRecord) (h : mapWF m) :
    mapWF (processRecordRoku allRecords m record) := by
  unfold processRecordRoku
  split
  · split
    next device heq =>
      split
      · obtain ⟨ht, hp, _, _⟩ := extractDeviceInfo_props record allRecords device heq
        exact mapWF_mapSet m device.ip device h rfl ht hp
      · exact h
    next => exact h
  · exact h

theorem processRecordA_WF (m : DeviceMap) (record : DnsRecord) (h : mapWF m) :
    mapWF (processRecordA m record) := by
  unfold processRecordA
  split
  · split
    · exact h
    · exact mapWF_mapSet m _ _ h rfl rfl rfl
  · exact h

theorem processRecord_WF (allRecords : List DnsRecord) (m : DeviceMap)
    (record : DnsRecord) (h : mapWF m) :
    mapWF (processRecord allRecords m record) :=
  processRecordA_WF _ _ (processRecordRoku_WF allRecords m record h)

theorem foldl_processRecord_WF (allRecords : List DnsRecord) :
    ∀ (recs : List DnsRecord) (m : DeviceMap), mapWF m →
      mapWF (recs.foldl (processRecord allRecords) m)
  | [], _, h => h
  | rec :: recs, m, h =>
      foldl_processRecord_WF allRecords recs _ (processRecord_WF allRecords m rec h)

theorem processResponse_WF (r : DnsResponse) (m : DeviceMap) (h : mapWF m) :
    mapWF (processResponse r m) :=
  foldl_processRecord_WF _ _ m h

/-! ### Lemmas about single-record responses (used for the cap bound) -/

theorem extractIp_single (rec : DnsRecord) :
    extractIp rec [rec] = if rec.type = "A" then rec.data else none := by
  unfold extractIp
  by_cases hA : rec.type = "A" <;> simp [List.find?, hA]

theorem extractDeviceInfo_single (rec : DnsRecord) (d : Device)
    (h : extractDeviceInfo rec [rec] = some d) :
    rec.type = "A" ∧ jsTruthyStr rec.data = true ∧ d.ip = rec.data.getD "" := by
  rw [extractDeviceInfo, extractIp_single] at h
  by_cases hA : rec.type = "A"
  · rw [if_pos hA] at h
    split at h
    next htr =>
      cases h
      exact ⟨hA, htr, rfl⟩
    next => exact absurd h (by simp)
  · rw [if_neg hA] at h
    simp [jsTruthyStr] at h

theorem processRecordRoku_single_cases (rec : DnsRecord) (m : DeviceMap) :
    processRecordRoku [rec] m rec = m ∨
      ((processRecordRoku [rec] m rec).length ≤ m.length + 1 ∧
        mapHas (processRecordRoku [rec] m rec) (rec.data.getD "") = true) := by
  unfold processRecordRoku
  split
  · split
    next device heq =>
      obtain ⟨_, htr, hip⟩ := extractDeviceInfo_single rec device heq
      obtain ⟨_, _, hne, _⟩ := extractDeviceInfo_props rec [rec] device heq
      rw [if_pos hne]
      right
      refine ⟨mapSet_length_le m device.ip device, ?_⟩
      rw [← hip]
      exact mapHas_mapSet_self m device.ip device
    next => left; rfl
  · left; rfl

theorem processRecord_single_length_le (rec : DnsRecord) (m : DeviceMap) :
    (processRecord [rec] m rec).length ≤ m.length + 1 := by
  unfold processRecord processRecordA
  rcases processRecordRoku_single_cases rec m with he | ⟨hlen, hhas⟩
  · rw [he]
    split
    · split
      · exact Nat.le_succ _
      · exact mapSet_length_le m _ _
    · exact Nat.le_succ _
  · split
    · have hhas' : mapHas (processRecordRoku [rec] m rec) (aRecordDevice rec).ip = true :=
        hhas
      rw [if_pos hhas']
      exact hlen
    · exact hlen

theorem processResponse_single_length_le (r : DnsResponse) (m : DeviceMap)
    (h : (r.answers ++ r.additionals).length ≤ 1) :
    (processResponse r m).length ≤ m.length + 1 := by
  unfold processResponse
  rcases hl : r.answers ++ r.additionals with _ | ⟨rec, rest⟩
  · rw [hl] at h
    exact Nat.le_succ _
  · rw [hl] at h
    have hrest : rest = [] := by
      cases rest with
      | nil => rfl
      | cons x xs => simp at h
    subst hrest
    simpa using processRecord_single_length_le rec m

/-! ### Lemmas about the discovery event loop -/

theorem discoverRun_resolved_exists (maxDevices : Nat) :
    ∀ (events : List DiscEvent) (m : DeviceMap) (o : DiscOutcome),
      discoverRun maxDevices m events = some o → ∃ l, o = DiscOutcome.resolved l := by
  intro events
  induction events with
  | nil => intro m o h; simp [discoverRun] at h
  | cons e rest ih =>
      intro m o h
      cases e with
      | response r =>
          rw [discoverRun] at h
          split at h
          · exact ⟨_, (Option.some.inj h).symm⟩
          · exact ih _ _ h
      | timeoutFires =>
          rw [discoverRun] at h
          exact ⟨_, (Option.some.inj h).symm⟩
      | listenerError =>
          rw [discoverRun] at h
          exact ⟨_, (Option.some.inj h).symm⟩

theorem mapValues_length (m : DeviceMap) : (mapValues m).length = m.length := by
  simp [mapValues]

theorem discoverRun_resolved_length_le (maxDevices : Nat) :
    ∀ (events : List DiscEvent) (m : DeviceMap) (l : List NormDevice),
      m.length ≤ maxDevices →
      (∀ r, DiscEvent.response r ∈ events → (r.answers ++ r.additionals).length ≤ 1) →
      discoverRun maxDevices m events = some (DiscOutcome.resolved l) →
      l.length ≤ maxDevices := by
  intro events
  induction events with
  | nil => intro m l _ _ h; simp [discoverRun] at h
  | cons e rest ih =>
      intro m l hm hev h
      cases e with
      | timeoutFires =>
          rw [discoverRun] at h
          have hl : l = ((mapValues m).take maxDevices).map normalizeDevice := by
            have := Option.some.inj h
            exact (DiscOutcome.resolved.inj this).symm
          rw [hl, List.length_map, List.length_take]
          exact Nat.min_le_left _ _
      | listenerError =>
          rw [discoverRun] at h
          have hl : l = (mapValues m).map normalizeDevice := by
            have h1 := Option.some.inj h
            have h2 := DiscOutcome.resolved.inj h1
            rw [← h2]
            exact if_length_pos_eq _
          rw [hl, List.length_map, mapValues_length]
          exact hm
      | response r =>
          rw [discoverRun] at h
          split at h
          next =>
            have hl : l = (mapValues m).map normalizeDevice :=
              (DiscOutcome.resolved.inj (Option.some.inj h)).symm
            rw [hl, List.length_map, mapValues_length]
            exact hm
          next hlt =>
            refine ih (processResponse r m) l ?_ ?_ h
            · have h1 : (processResponse r m).length ≤ m.length + 1 :=
                processResponse_single_length_le r m (hev r (by simp))
              have h2 : m.length < maxDevices := Nat.lt_of_not_le hlt
              omega
            · intro r' hr'
              exact hev r' (by simp [hr'])

theorem map_ip_normalize (m : DeviceMap) (h : mapWF m) :
    ((mapValues m).map normalizeDevice).map NormDevice.ip = m.map Prod.fst := by
  rw [mapValues, List.map_map, List.map_map]
  apply List.map_congr_left
  intro p hp
  have := (h.2 p hp).1
  simpa [normalizeDevice, Function.comp] using this

theorem discoverRun_addresses_nodup (maxDevices : Nat) :
    ∀ (events : List DiscEvent) (m : DeviceMap) (l : List NormDevice),
      mapWF m →
      discoverRun maxDevices m events = some (DiscOutcome.resolved l) →
      (l.map NormDevice.ip).Nodup := by
  intro events
  induction events with
  | nil => intro m l _ h; simp [discoverRun] at h
  | cons e rest ih =>
      intro m l hwf h
      cases e with
      | timeoutFires =>
          rw [discoverRun] at h
          have hl : l = ((mapValues m).take maxDevices).map normalizeDevice :=
            (DiscOutcome.resolved.inj (Option.some.inj h)).symm
          rw [hl, List.map_map, List.map_take, ← List.map_map,
            map_ip_normalize m hwf]
          exact hwf.1.sublist (List.take_sublist _ _)
      | listenerError =>
          rw [discoverRun] at h
          have hl : l = (mapValues m).map normalizeDevice := by
            have h2 := DiscOutcome.resolved.inj (Option.some.inj h)
            rw [← h2]
            exact if_length_pos_eq _
          rw [hl, map_ip_normalize m hwf]
          exact hwf.1
      | response r =>
          rw [discoverRun] at h
          split at h
          next =>
            have hl : l = (mapValues m).map normalizeDevice :=
              (DiscOutcome.resolved.inj (Option.some.inj h)).symm
            rw [hl, map_ip_normalize m hwf]
            exact hwf.1
          next =>
            exact ih (processResponse r m) l (processResponse_WF r m hwf) h

/-! ### Concrete fixtures (used by counterexamples and witnesses) -/

def exRecA1 : DnsRecord := { name := some "host1.local", type := "A", data := some "10.0.0.1" }

def exRecA2 : DnsRecord := { name := some "host2.local", type := "A", data := some "10.0.0.2" }

def exRespTwo : DnsResponse := { answers := [exRecA1, exRecA2], additionals := [] }

def exRespEmpty : DnsResponse := { answers := [], additionals := [] }

def exRecSingle : DnsRecord :=
  { name := some "host3.local", type := "A", data := some "10.0.0.3" }

def exRespSingle : DnsResponse := { answers := [exRecSingle], additionals := [] }

def exRecOld : DnsRecord := { name := some "host1.local", type := "A", data := some "10.0.0.5" }

def exRecNew : DnsRecord := { name := some "host2.local", type := "A", data := some "10.0.0.5" }

def exRespOld : DnsResponse := { answers := [exRecOld], additionals := [] }

def exRespNew : DnsResponse := { answers := [exRecNew], additionals := [] }

/-- Session map after observing `exRespOld` (one entry for `10.0.0.5`). -/
def exMapOld : DeviceMap := processResponse exRespOld []

/-- Session map after then observing `exRespNew` (same address, new name). -/
def exMapNew : DeviceMap := processResponse exRespNew exMapOld

def exRecPtr : DnsRecord := { name := some "Roku-XYZ", type := "PTR", data := none }

def exRecARoku : DnsRecord := { name := some "Roku-XYZ", type := "A", data := some "10.0.0.9" }

def exDevRoku : Device :=
  { name := some "Roku-XYZ", ip := "10.0.0.9", port := some 8060,
    type := some "roku", text := none }

def exDevStored : Device :=
  { name := some "host1.local", ip := "10.0.0.5", port := some 8060,
    type := some "roku", text := none }

def exDevNoPort : Device :=
  { name := none, ip := "10.0.0.5", port := none, type := none, text := none }

def exNorm1 : NormDevice :=
  { ip := "10.0.0.1", name := "host1.local", port := 8060, type := "roku",
    url := "http://10.0.0.1:8060" }

def exNorm2 : NormDevice :=
  { ip := "10.0.0.2", name := "host2.local", port := 8060, type := "roku",
    url := "http://10.0.0.2:8060" }

/-- The session map obtained after processing a list of responses in order. -/
def sessionMap (responses : List DnsResponse) : DeviceMap :=
  responses.foldl (fun m r => processResponse r m) []

theorem foldl_processResponse_WF :
    ∀ (responses : List DnsResponse) (m : DeviceMap), mapWF m →
      mapWF (responses.foldl (fun m r => processResponse r m) m)
  | [], _, h => h
  | r :: rs, m, h => foldl_processResponse_WF rs _ (processResponse_WF r m h)

theorem sessionMap_WF (responses : List DnsResponse) : mapWF (sessionMap responses) :=
  foldl_processResponse_WF responses [] mapWF_nil

/-! ### Claim C1 -/

/-- Claim C1 as stated is false: with `maxDevices = 1`, a single response
carrying two `A` records grows the session map to 2 entries, and the
cap-check path then resolves with the whole (unsliced) map, so the result
has 2 > 1 entries. -/
theorem discover_result_size_exceeds_cap_cex :
    ¬ (∀ (maxDevices : Nat) (events : List DiscEvent) (l : List NormDevice),
        discover maxDevices events = some (DiscOutcome.resolved l) →
        l.length ≤ maxDevices) := by
  intro hcl
  have h := hcl 1 [DiscEvent.response exRespTwo, DiscEvent.response exRespEmpty]
    [exNorm1, exNorm2] (by decide)
  exact absurd h (by decide)

/-- Claim C1 (amended): the deadline resolution path truncates to
`maxDevices`, so it never exceeds the cap from any session state; and when
every inbound response carries at most one record, no resolution path
(deadline, cap, or listener error) exceeds `maxDevices`.  In general the cap
and error paths return the whole session map, which can exceed the cap when
one response inserts several addresses. -/
theorem discover_result_size_bounded (maxDevices : Nat) :
    (∀ (m : DeviceMap) (rest : List DiscEvent) (l : List NormDevice),
        discoverRun maxDevices m (DiscEvent.timeoutFires :: rest)
          = some (DiscOutcome.resolved l) →
        l.length ≤ maxDevices)
    ∧ (∀ (events : List DiscEvent) (l : List NormDevice),
        (∀ r, DiscEvent.response r ∈ events → (r.answers ++ r.additionals).length ≤ 1) →
        discover maxDevices events = some (DiscOutcome.resolved l) →
        l.length ≤ maxDevices) := by
  constructor
  · intro m rest l h
    rw [discoverRun] at h
    have hl : l = ((mapValues m).take maxDevices).map normalizeDevice :=
      (DiscOutcome.resolved.inj (Option.some.inj h)).symm
    rw [hl, List.length_map, List.length_take]
    exact Nat.min_le_left _ _
  · intro events l hev h
    exact discoverRun_resolved_length_le maxDevices events [] l (by simp) hev h

theorem discover_result_size_bounded_witness :
    ([exNorm1].length ≤ 1)
    ∧ (((mapValues (processResponse exRespSingle [])).map normalizeDevice).length ≤ 1) := by
  constructor
  · exact (discover_result_size_bounded 1).1 (processResponse exRespTwo [])
      [] [exNorm1] (by decide)
  · refine (discover_result_size_bounded 1).2
      [DiscEvent.response exRespSingle, DiscEvent.timeoutFires]
      ((mapValues (processResponse exRespSingle [])).map normalizeDevice) ?_ ?_
    · intro r hr
      simp at hr
      subst hr
      decide
    · decide

/-! ### Claim C2 -/

/-- Claim C2 as stated is false: with `maxDevices = 1`, processing
`exRespSingle` brings the session map to the cap, yet the call has not
resolved after that insert — the cap is only checked at the head of the
next response handler, so the session keeps waiting for a further inbound
response or the deadline. -/
theorem discover_cap_not_immediate_cex :
    ¬ (∀ (maxDevices : Nat) (m : DeviceMap) (r : DnsResponse),
        maxDevices ≤ (processResponse r m).length →
        (discoverRun maxDevices m [DiscEvent.response r]).isSome = true) := by
  intro hcl
  have h := hcl 1 [] exRespSingle (by decide)
  exact absurd h (by decide)

/-- Claim C2 (corrected): once the session map holds at least `maxDevices`
entries, the call resolves at the very next event, whichever of the three
sources delivers it — in particular at the next inbound response, before
processing it — rather than at the moment of the insert that reached the
cap. -/
theorem discover_cap_resolves_at_next_event (maxDevices : Nat) (m : DeviceMap)
    (e : DiscEvent) (rest : List DiscEvent) (h : maxDevices ≤ m.length) :
    ∃ l, discoverRun maxDevices m (e :: rest) = some (DiscOutcome.resolved l) := by
  cases e with
  | timeoutFires => exact ⟨_, by rw [discoverRun]⟩
  | listenerError => exact ⟨_, by rw [discoverRun]⟩
  | response r => exact ⟨_, by rw [discoverRun, if_pos h]⟩

theorem discover_cap_resolves_at_next_event_witness :
    (1 ≤ exMapOld.length)
    ∧ ∃ l, discoverRun 1 exMapOld [DiscEvent.response exRespEmpty]
        = some (DiscOutcome.resolved l) :=
  ⟨by decide,
   discover_cap_resolves_at_next_event 1 exMapOld (DiscEvent.response exRespEmpty) []
     (by decide)⟩

/-! ### Claim C3 -/

/-- Claim C3 as stated is false: the address `10.0.0.5` is already present
in `exMapOld` (observed via `exRecOld`), and the later bare-`A`-record
observation `exRecNew` for the same address does not replace it — the map
keeps the earlier descriptor (named `host1.local`) unchanged, because the
bare-`A` branch inserts only when the address is absent. -/
theorem processRecord_no_overwrite_cex :
    ¬ (∀ (m : DeviceMap) (allRecords : List DnsRecord) (record : DnsRecord),
        record.type = "A" → jsTruthyStr record.data = true →
        mapHas m (record.data.getD "") = true →
        mapLookup (processRecord allRecords m record) (record.data.getD "")
          = some (aRecordDevice record)) := by
  intro hcl
  have h := hcl exMapOld [exRecNew] exRecNew (by decide) (by decide) (by decide)
  exact absurd h (by decide)

/-- Claim C3 (corrected): the overwrite policy depends on the kind of
observed record.  A bare `A`-record observation for an address already in
the session map is discarded, leaving the earlier descriptor in place; a
Roku-named service record (here taken with a non-`A` type so only that
branch fires) overwrites: the map becomes `mapSet m d.ip d` and the stored
descriptor at that address is the new one. -/
theorem processRecord_overwrite_policy (allRecords : List DnsRecord) (m : DeviceMap)
    (record : DnsRecord) (d : Device) :
    (nameHasRoku record.name = false → record.type = "A" →
      jsTruthyStr record.data = true → mapHas m (record.data.getD "") = true →
      processRecord allRecords m record = m)
    ∧ (nameHasRoku record.name = true → record.type ≠ "A" →
      extractDeviceInfo record allRecords = some d →
      processRecord allRecords m record = mapSet m d.ip d
        ∧ mapLookup (mapSet m d.ip d) d.ip = some d) := by
  constructor
  · intro hn hA htr hhas
    have h1 : processRecordRoku allRecords m record = m := by
      unfold processRecordRoku
      rw [if_neg (by simp [hn])]
    unfold processRecord
    rw [h1]
    unfold processRecordA
    rw [if_pos (by simp [hA, htr]),
      if_pos (show mapHas m (aRecordDevice record).ip = true from hhas)]
  · intro hn hA hex
    obtain ⟨_, _, hne, _⟩ := extractDeviceInfo_props record allRecords d hex
    constructor
    · have h1 : processRecordRoku allRecords m record = mapSet m d.ip d := by
        unfold processRecordRoku
        rw [if_pos hn, hex]
        show (if d.ip ≠ "" then mapSet m d.ip d else m) = mapSet m d.ip d
        rw [if_pos hne]
      unfold processRecord
      rw [h1]
      unfold processRecordA
      rw [if_neg (by simp [hA])]
    · exact mapLookup_mapSet_self m d.ip d

theorem processRecord_overwrite_policy_witness :
    (processRecord [exRecNew] exMapOld exRecNew = exMapOld)
    ∧ (processRecord [exRecPtr, exRecARoku] exMapOld exRecPtr
        = mapSet exMapOld exDevRoku.ip exDevRoku
      ∧ mapLookup (mapSet exMapOld exDevRoku.ip exDevRoku) exDevRoku.ip
        = some exDevRoku) := by
  constructor
  · exact (processRecord_overwrite_policy [exRecNew] exMapOld exRecNew exDevRoku).1
      (by decide) (by decide) (by decide) (by decide)
  · exact (processRecord_overwrite_policy [exRecPtr, exRecARoku] exMapOld exRecPtr
      exDevRoku).2 (by decide) (by decide) (by decide)

/-! ### Claim C4 -/

/-- Claim C4: evaluating `_parseAppsXml` on the app entry
`<app id="12" type="appl" version="2.0">Netflix</app>` shows that the
returned `name` is `"2.0"` — the `version` attribute — not the text content
`"Netflix"`; the source maps `name` from `app.$['version'] || app._`, while
the sibling `_parseActiveAppXml` (and the fixed field mapping the spec
states) take `name` from the text content. -/
theorem parseAppsXml_name_from_version_bug :
    parseAppsXml (AppsParse.success (AppsField.arr
        [ { dollar := some { id := some "12", type := some "appl", version := some "2.0" },
            text := some "Netflix" } ]))
      = [ { id := some "12", name := some "2.0", type := some "appl",
            version := some "2.0" } ]
    ∧ (some "2.0" : Option String) ≠ some "Netflix" :=
  ⟨rfl, by decide⟩

/-! ### Claim C5 -/

/-- Claim C5: the discovery call never rejects.  The listener-error handler
resolves with exactly the descriptors collected so far (possibly the empty
list), and every settled outcome of a discovery run is a resolution — the
`reject` callback is never invoked on any path. -/
theorem discover_never_rejects (maxDevices : Nat) (m : DeviceMap)
    (rest events : List DiscEvent) (o : DiscOutcome) :
    (discoverRun maxDevices m (DiscEvent.listenerError :: rest)
        = some (DiscOutcome.resolved ((mapValues m).map normalizeDevice)))
    ∧ (discoverRun maxDevices m events = some o → ∃ l, o = DiscOutcome.resolved l) := by
  constructor
  · rw [discoverRun]
    rw [if_length_pos_eq]
  · exact discoverRun_resolved_exists maxDevices events m o

theorem discover_never_rejects_witness :
    discoverRun 1 [] [DiscEvent.listenerError] = some (DiscOutcome.resolved [])
    ∧ ∃ l, (DiscOutcome.resolved [] : DiscOutcome) = DiscOutcome.resolved l := by
  have h := discover_never_rejects 1 [] [] [DiscEvent.listenerError] (DiscOutcome.resolved [])
  exact ⟨h.1, h.2 h.1⟩

/-! ### Claim C6 -/

/-- Claim C6: normalization produces `url = "http://" ++ address ++ ":" ++
port`; `displayName` (the `name` field) falls back to `"Unknown Roku
Device"` when absent; `port` falls back to `8060` when absent; every
descriptor actually stored by a discovery session normalizes to kind
(`type`) `"roku"` and port `8060`; and the concrete descriptor with address
`10.0.0.5` and no explicit port normalizes to port `8060` and url
`http://10.0.0.5:8060`. -/
theorem normalizeDevice_spec (d : Device) :
    ((normalizeDevice d).url
        = "http://" ++ d.ip ++ ":" ++ toString ((normalizeDevice d).port))
    ∧ (d.name = none → (normalizeDevice d).name = "Unknown Roku Device")
    ∧ (d.port = none → (normalizeDevice d).port = 8060)
    ∧ (∀ (responses : List DnsResponse) (k : String),
        mapLookup (sessionMap responses) k = some d →
        (normalizeDevice d).type = "roku" ∧ (normalizeDevice d).port = 8060)
    ∧ (d.ip = "10.0.0.5" → d.port = none →
        (normalizeDevice d).port = 8060
          ∧ (normalizeDevice d).url = "http://10.0.0.5:8060") := by
  refine ⟨rfl, ?_, ?_, ?_, ?_⟩
  · intro h; simp [normalizeDevice, jsOrStr, h]
  · intro h; simp [normalizeDevice, jsOrNat, h]
  · intro responses k hk
    obtain ⟨p, hp, hpd⟩ := mapLookup_mem _ _ _ hk
    obtain ⟨_, ht, hport⟩ := (sessionMap_WF responses).2 p hp
    have ht' : d.type = some "roku" := by rw [← hpd]; exact ht
    have hport' : d.port = some 8060 := by rw [← hpd]; exact hport
    constructor
    · rw [show (normalizeDevice d).type = jsOrStr d.type "roku" from rfl, ht']
      decide
    · rw [show (normalizeDevice d).port = jsOrNat d.port 8060 from rfl, hport']
      decide
  · intro hip hport
    refine ⟨by simp [normalizeDevice, jsOrNat, hport], ?_⟩
    rw [show (normalizeDevice d).url
        = "http://" ++ d.ip ++ ":" ++ toString (jsOrNat d.port 8060) from rfl,
      hip, hport]
    decide

theorem normalizeDevice_spec_witness :
    (normalizeDevice exDevNoPort).name = "Unknown Roku Device"
    ∧ (normalizeDevice exDevNoPort).port = 8060
    ∧ ((normalizeDevice exDevStored).type = "roku"
        ∧ (normalizeDevice exDevStored).port = 8060)
    ∧ ((normalizeDevice exDevNoPort).port = 8060
        ∧ (normalizeDevice exDevNoPort).url = "http://10.0.0.5:8060") := by
  refine ⟨?_, ?_, ?_, ?_⟩
  · exact (normalizeDevice_spec exDevNoPort).2.1 rfl
  · exact (normalizeDevice_spec exDevNoPort).2.2.1 rfl
  · exact (normalizeDevice_spec exDevStored).2.2.2.1 [exRespOld] "10.0.0.5" (by decide)
  · exact (normalizeDevice_spec exDevNoPort).2.2.2.2 rfl rfl

/-! ### Claim C7 -/

/-- Claim C7: whenever a discovery call resolves with a list of descriptors,
the addresses (`ip` fields) of that list are pairwise distinct — on every
resolution path, since the session map keys addresses uniquely and every
stored descriptor carries its key as its address. -/
theorem discover_addresses_distinct (maxDevices : Nat) (events : List DiscEvent)
    (l : List NormDevice)
    (h : discover maxDevices events = some (DiscOutcome.resolved l)) :
    (l.map NormDevice.ip).Nodup :=
  discoverRun_addresses_nodup maxDevices events [] l mapWF_nil h

theorem discover_addresses_distinct_witness :
    (([exNorm1, exNorm2] : List NormDevice).map NormDevice.ip).Nodup :=
  discover_addresses_distinct 1
    [DiscEvent.response exRespTwo, DiscEvent.response exRespEmpty]
    [exNorm1, exNorm2] (by decide)

/-! ### Claim C8 -/

/-- Claim C8: for every text `t`, the outbound URL of the text-entry command
is built from the path `/keypress/` followed by the literal-input marker
`Lit_` followed by `encodeURIComponent t`; in particular the URL for the
text `"a b"` contains the substring `Lit_a%20b`. -/
theorem text_outbound_path_spec :
    (∀ (ip t : String),
        textUrl ip t = buildUrl ip ("/keypress/" ++ ("Lit_" ++ encodeURIComponent t)))
    ∧ encodeURIComponent "a b" = "a%20b"
    ∧ strIncludes (textUrl "10.0.0.5" "a b") "Lit_a%20b" = true := by
  refine ⟨?_, by decide, by decide⟩
  intro ip t
  unfold textUrl
  rw [show ("/keypress/Lit_" : String) = "/keypress/" ++ "Lit_" from rfl,
    String.append_assoc]

/-! ### Claim C9 -/

/-- Claim C9: `getMediaPlayer` always returns successfully (never lets a
thrown failure propagate); whenever the outbound request fails with message
`e` — which includes every device reply with status at least 400, in
particular 404 — the result is the record `{available: false, error: e}`. -/
theorem getMediaPlayer_soft_failure (ip statusText body : String) (status : Nat)
    (outcome : HttpOutcome) (parse : String → MediaXmlParse) :
    (∃ r, getMediaPlayer ip outcome parse = Except.ok r)
    ∧ (∀ e, makeRequest (buildUrl ip "/query/media-search") outcome = Except.error e →
        getMediaPlayer ip outcome parse
          = Except.ok (MediaResult.unavailable (some e)))
    ∧ (400 ≤ status →
        getMediaPlayer ip (HttpOutcome.reply status statusText body) parse
          = Except.ok (MediaResult.unavailable
              (some ("Roku API error: " ++ toString status ++ " " ++ statusText)))) := by
  refine ⟨?_, ?_, ?_⟩
  · cases h : makeRequest (buildUrl ip "/query/media-search") outcome with
    | ok xml =>
        exact ⟨parseMediaXml (parse xml), by unfold getMediaPlayer; rw [h]⟩
    | error e =>
        exact ⟨MediaResult.unavailable (some e), by unfold getMediaPlayer; rw [h]⟩
  · intro e he
    unfold getMediaPlayer
    rw [he]
  · intro hs
    unfold getMediaPlayer makeRequest
    dsimp only
    rw [if_pos hs]

theorem getMediaPlayer_soft_failure_witness :
    (getMediaPlayer "10.0.0.5" HttpOutcome.connRefused (fun _ => MediaXmlParse.failure)
        = Except.ok (MediaResult.unavailable (some ("Cannot connect to Roku device at "
            ++ buildUrl "10.0.0.5" "/query/media-search"
            ++ ". Check IP address and that device is powered on."))))
    ∧ getMediaPlayer "10.0.0.5" (HttpOutcome.reply 404 "Not Found" "")
        (fun _ => MediaXmlParse.failure)
      = Except.ok (MediaResult.unavailable
          (some ("Roku API error: " ++ toString 404 ++ " " ++ "Not Found"))) := by
  constructor
  · exact (getMediaPlayer_soft_failure "10.0.0.5" "" "" 0 HttpOutcome.connRefused
      (fun _ => MediaXmlParse.failure)).2.1
      ("Cannot connect to Roku device at " ++ buildUrl "10.0.0.5" "/query/media-search"
        ++ ". Check IP address and that device is powered on.") rfl
  · exact (getMediaPlayer_soft_failure "10.0.0.5" "Not Found" "" 404
      (HttpOutcome.reply 404 "Not Found" "") (fun _ => MediaXmlParse.failure)).2.2
      (by decide)

/-! ### Claim C10 -/

/-- Claim C10: when the device's apps reply arrives (a success status) but
its body fails to parse as XML, or parses to a document without an array of
app entries, `getApps` returns the empty list — no `ProtocolError` and no
propagated parse failure. -/
theorem getApps_unparseable_empty (ip statusText body : String) (status : Nat)
    (parse : String → AppsParse)
    (hs : status < 400)
    (hp : parse body = AppsParse.failure
        ∨ parse body = AppsParse.success AppsField.absent
        ∨ parse body = AppsParse.success AppsField.nonArrayValue) :
    getApps ip (HttpOutcome.reply status statusText body) parse = Except.ok [] := by
  unfold getApps makeRequest
  dsimp only
  rw [if_neg (by omega)]
  rcases hp with h | h | h <;> simp [Except.map, h, parseAppsXml]

theorem getApps_unparseable_empty_witness :
    getApps "10.0.0.5" (HttpOutcome.reply 200 "OK" "bogus") (fun _ => AppsParse.failure)
      = Except.ok [] :=
  getApps_unparseable_empty "10.0.0.5" "OK" "bogus" 200 (fun _ => AppsParse.failure)
    (by decide) (Or.inl rfl)

end RokuWeb
